import Mathlib

/-!
Verification of `pml_fourier_decomposed_helmholtz_flux_elements.h` (oomph-lib).

Shallow embedding: C++ doubles are modelled as elements of an arbitrary
commutative ring `α` (instantiated at `ℤ` for concrete evaluations and at `ℝ`
where the constant pi is needed).  The external isoparametric machinery
(shape functions, Eulerian Jacobian, quadrature knots and weights, nodal
positions, local equation numbering) lives outside this header and is
modelled as data fields of the element structures.  Mutable reference
parameters (the residual vector and the Jacobian matrix) are modelled by
explicit state passing: a function takes the buffer and returns the updated
buffer.  The residual vector is a total map `ℕ → α`; the local equation
number returned by `nodal_local_eqn` is an `ℤ` (negative means a pinned
degree of freedom, exactly as in the source).
-/

namespace Oomph

/-- Models `OomphLibError`, the exception thrown by the header on
misconfiguration (the spec calls this ConfigurationError). -/
structure OomphLibError where
  message : String

/-- External face data consumed by
`PMLFourierDecomposedHelmholtzFluxElement`: everything the element obtains
from the `FaceGeometry`/`FaceElement`/`Integral` machinery, which is outside
this header.  `shape` models `shape(s, psi)` (one shape value per local node
at the 1D local coordinate `s`); per `shape_and_test`, the test functions are
set equal to the shape functions.  `J_eulerian` models `J_eulerian(s)`,
`knot`/`weight` model `integral_pt()->knot(ipt,0)` and
`integral_pt()->weight(ipt)`, `nodal_position l i` models
`nodal_position(l,i)`, and `nodal_local_eqn l k` models
`nodal_local_eqn(l,k)`. -/
structure FaceGeometryData (α : Type) where
  nnode : ℕ
  n_intpt : ℕ
  knot : ℕ → α
  weight : ℕ → α
  shape : α → ℕ → α
  J_eulerian : α → α
  nodal_position : ℕ → ℕ → α
  nodal_local_eqn : ℕ → ℕ → ℤ

/-- The flux element of the header: the face data plus the state set up by
the constructor, namely `U_index_pml_fourier_decomposed_helmholtz`
(modelled as the pair of fields `U_index_real`, `U_index_imag`) and the
prescribed-flux function pointer `Flux_fct_pt` (a null pointer is `none`).
A flux function maps the two components of the interpolated position to the
real and imaginary parts of the complex flux. -/
structure PMLFourierDecomposedHelmholtzFluxElement (α : Type) extends
    FaceGeometryData α where
  U_index_real : ℕ
  U_index_imag : ℕ
  Flux_fct_pt : Option (α → α → α × α)

variable {α : Type} [CommRing α]

/-- Models `get_flux`: if the function pointer is zero return zero,
otherwise call the function. -/
def get_flux (e : PMLFourierDecomposedHelmholtzFluxElement α) (x0 x1 : α) :
    α × α :=
  match e.Flux_fct_pt with
  | none => ((0 : α), (0 : α))
  | some f => f x0 x1

/-- Models one guarded update `if (local_eqn >= 0) residuals[local_eqn] -= v`
of the residual buffer. -/
def residual_sub (res : ℕ → α) (local_eqn : ℤ) (v : α) : ℕ → α :=
  if 0 ≤ local_eqn then
    Function.update res local_eqn.toNat (res local_eqn.toNat - v)
  else res

/-- Sequential application of a list of guarded residual updates, in order. -/
def residual_sub_list : List (ℤ × α) → (ℕ → α) → ℕ → α
  | [], res => res
  | p :: ps, res => residual_sub_list ps (residual_sub res p.1 p.2)

/-- Models `interpolated_x[i]` at integration point `ipt`: the sum over the
local nodes of `nodal_position(l, i) * psif[l]`. -/
def flux_interpolated_x (e : PMLFourierDecomposedHelmholtzFluxElement α)
    (ipt i : ℕ) : α :=
  ∑ l in Finset.range e.nnode, e.nodal_position l i * e.shape (e.knot ipt) l

/-- Models the `get_flux(interpolated_x, flux)` call at integration point
`ipt` (the position vector has the two components `interpolated_x[0]` and
`interpolated_x[1]`). -/
def flux_value (e : PMLFourierDecomposedHelmholtzFluxElement α) (ipt : ℕ) :
    α × α :=
  get_flux e (flux_interpolated_x e ipt 0) (flux_interpolated_x e ipt 1)

/-- The quantity `flux.real() * testf[l] * r * W` subtracted from the real
channel, with `r = interpolated_x[0]`, `W = w * J`, and `testf = psif`
(per `shape_and_test`). -/
def flux_contrib_real (e : PMLFourierDecomposedHelmholtzFluxElement α)
    (ipt l : ℕ) : α :=
  (flux_value e ipt).1 * e.shape (e.knot ipt) l * flux_interpolated_x e ipt 0 *
    (e.weight ipt * e.J_eulerian (e.knot ipt))

/-- The quantity `flux.imag() * testf[l] * r * W` subtracted from the
imaginary channel. -/
def flux_contrib_imag (e : PMLFourierDecomposedHelmholtzFluxElement α)
    (ipt l : ℕ) : α :=
  (flux_value e ipt).2 * e.shape (e.knot ipt) l * flux_interpolated_x e ipt 0 *
    (e.weight ipt * e.J_eulerian (e.knot ipt))

/-- Models
`fill_in_generic_residual_contribution_pml_fourier_decomposed_helmholtz_flux`:
the loop over integration points and, inside it, the loop over the test
functions performing the two guarded subtractions at
`nodal_local_eqn(l, U_index.real())` and `nodal_local_eqn(l, U_index.imag())`.
The body never reads `jacobian` or `flag`, so the Jacobian buffer is returned
as passed in. -/
def fill_in_generic_residual_contribution_pml_fourier_decomposed_helmholtz_flux
    (e : PMLFourierDecomposedHelmholtzFluxElement α) (residuals : ℕ → α)
    (jacobian : ℕ → ℕ → α) (flag : ℕ) : (ℕ → α) × (ℕ → ℕ → α) :=
  ((List.range e.n_intpt).foldl
      (fun res ipt =>
        (List.range e.nnode).foldl
          (fun res2 l =>
            residual_sub
              (residual_sub res2 (e.nodal_local_eqn l e.U_index_real)
                (flux_contrib_real e ipt l))
              (e.nodal_local_eqn l e.U_index_imag) (flux_contrib_imag e ipt l))
          res)
      residuals,
    jacobian)

/-- Models `GeneralisedElement::Dummy_matrix`, the placeholder matrix passed
by `fill_in_contribution_to_residuals`. -/
def Dummy_matrix (α : Type) [CommRing α] : ℕ → ℕ → α := fun _ _ => 0

/-- Models `fill_in_contribution_to_residuals`: calls the generic residuals
function with flag set to 0 using a dummy matrix argument. -/
def fill_in_contribution_to_residuals
    (e : PMLFourierDecomposedHelmholtzFluxElement α) (residuals : ℕ → α) :
    ℕ → α :=
  (fill_in_generic_residual_contribution_pml_fourier_decomposed_helmholtz_flux
      e residuals (Dummy_matrix α) 0).1

/-- Models `fill_in_contribution_to_jacobian`: calls the generic routine with
the flag set to 1; returns the updated residual buffer and the (untouched)
Jacobian buffer. -/
def fill_in_contribution_to_jacobian
    (e : PMLFourierDecomposedHelmholtzFluxElement α) (residuals : ℕ → α)
    (jacobian : ℕ → ℕ → α) : (ℕ → α) × (ℕ → ℕ → α) :=
  fill_in_generic_residual_contribution_pml_fourier_decomposed_helmholtz_flux
    e residuals jacobian 1

/-- Models the broken empty constructor of
`PMLFourierDecomposedHelmholtzFluxElement`: it unconditionally throws an
`OomphLibError`, so no element is ever produced. -/
def PMLFourierDecomposedHelmholtzFluxElement.empty_constructor
    (α : Type) [CommRing α] :
    Except OomphLibError (PMLFourierDecomposedHelmholtzFluxElement α) :=
  Except.error
    (OomphLibError.mk
      "Dont call empty constructor for PMLFourierDecomposedHelmholtzFluxElement")

/-- Models the main constructor of
`PMLFourierDecomposedHelmholtzFluxElement`.  The face data `g` stands for the
result of `bulk_el_pt->build_face_element(face_index, this)` (external
machinery).  `bulk_cast` is the result of the `dynamic_cast` of the bulk
element to `PMLFourierDecomposedHelmholtzEquations`: `none` when the cast
fails, otherwise the pair returned by
`u_index_pml_fourier_decomposed_helmholtz()` on the bulk element.  The
constructor initialises `Flux_fct_pt` to the null pointer and `U_index` to
`(0, 1)`; on a successful cast `U_index` is overwritten by the value read
from the bulk element, and on a failed cast the constructor throws. -/
def PMLFourierDecomposedHelmholtzFluxElement.construct
    (g : FaceGeometryData α) (bulk_cast : Option (ℕ × ℕ)) :
    Except OomphLibError (PMLFourierDecomposedHelmholtzFluxElement α) :=
  match bulk_cast with
  | none =>
    Except.error
      (OomphLibError.mk
        "Bulk element must inherit from PMLFourierDecomposedHelmholtzEquations.")
  | some u =>
    Except.ok
      { toFaceGeometryData := g
        U_index_real := u.1
        U_index_imag := u.2
        Flux_fct_pt := none }

/-- Face data for the end-to-end flux scenario: one node, one integration
point, weight 1, Eulerian Jacobian 1, test function 1, nodal position
`(2, 0)` (so the radial coordinate is 2), and local equation numbers 0 (real
slot) and 1 (imaginary slot). -/
def exampleFluxGeometry : FaceGeometryData ℤ where
  nnode := 1
  n_intpt := 1
  knot := fun _ => 0
  weight := fun _ => 1
  shape := fun _ _ => 1
  J_eulerian := fun _ => 1
  nodal_position := fun _ i => if i = 0 then 2 else 0
  nodal_local_eqn := fun _ k => if k = 0 then 0 else 1

/-- The end-to-end flux scenario element: constant flux `(3, -4)`, unpinned
real and imaginary degrees of freedom at indices 0 and 1. -/
def exampleFluxElement : PMLFourierDecomposedHelmholtzFluxElement ℤ :=
  { toFaceGeometryData := exampleFluxGeometry
    U_index_real := 0
    U_index_imag := 1
    Flux_fct_pt := some fun _ _ => ((3 : ℤ), (-4 : ℤ)) }

/-- A flux element with a null flux function pointer (for the
null-flux property). -/
def exampleNullFluxElement : PMLFourierDecomposedHelmholtzFluxElement ℤ :=
  { toFaceGeometryData := exampleFluxGeometry
    U_index_real := 0
    U_index_imag := 1
    Flux_fct_pt := none }

/-- A flux element on a face where every degree of freedom is pinned
(every local equation number is negative). -/
def examplePinnedFluxElement : PMLFourierDecomposedHelmholtzFluxElement ℤ :=
  { toFaceGeometryData :=
      { exampleFluxGeometry with nodal_local_eqn := fun _ _ => -1 }
    U_index_real := 0
    U_index_imag := 1
    Flux_fct_pt := some fun _ _ => ((3 : ℤ), (-4 : ℤ)) }

/-- The full ordered list of guarded residual updates performed by the
generic residual routine: for each integration point, for each local node,
the real-channel update followed by the imaginary-channel update. -/
def flux_pairs (e : PMLFourierDecomposedHelmholtzFluxElement α) :
    List (ℤ × α) :=
  (List.range e.n_intpt).flatMap fun ipt =>
    (List.range e.nnode).flatMap fun l =>
      [(e.nodal_local_eqn l e.U_index_real, flux_contrib_real e ipt l),
        (e.nodal_local_eqn l e.U_index_imag, flux_contrib_imag e ipt l)]

/-- External data consumed by
`PMLFourierDecomposedHelmholtzPowerMonitorElement::global_power_contribution`.
`knot`/`weight` model the integration rule, `J_eulerian` the face Jacobian,
`outer_unit_normal s i` component `i` of the outward unit normal at the face
local coordinate `s`, and `shape` the face shape functions.  `dpsi_bulk_dx
s l i` models the spatial derivative `dpsi_bulk_dx(l, i)` computed by the
bulk element at `local_coordinate_in_bulk(s)` (the face-to-bulk coordinate
map and `dshape_eulerian` are external machinery, so their composition is a
single data field).  `bulk_nodal_value` and `bulk_u_index_real`/`imag` model
`bulk_elem_pt->nodal_value` and the bulk
`u_index_pml_fourier_decomposed_helmholtz()` accessor; `nodal_value` models
the face element `nodal_value`; `interpolated_x s i` models
`interpolated_x(s, x)`; `atan2` and `pi_const` model the library functions
`atan2` and `MathematicalConstants::Pi`. -/
structure PowerFaceData (α : Type) where
  nnode_bulk : ℕ
  n_node_local : ℕ
  bulk_dim : ℕ
  n_intpt : ℕ
  knot : ℕ → α
  weight : ℕ → α
  shape : α → ℕ → α
  J_eulerian : α → α
  outer_unit_normal : α → ℕ → α
  dpsi_bulk_dx : α → ℕ → ℕ → α
  bulk_nodal_value : ℕ → ℕ → α
  bulk_u_index_real : ℕ
  bulk_u_index_imag : ℕ
  nodal_value : ℕ → ℕ → α
  interpolated_x : α → ℕ → α
  atan2 : α → α → α
  pi_const : α

/-- The power monitor element: the external face data plus the complex
unknown index set up by the constructor. -/
structure PMLFourierDecomposedHelmholtzPowerMonitorElement (α : Type) extends
    PowerFaceData α where
  U_index_real : ℕ
  U_index_imag : ℕ

/-- Multiplication of a `std::complex<double>` (modelled as a pair) by a
real scalar, as in `phi_value * dpsi_bulk_dx(l, i)`. -/
def cmul_real (z : α × α) (t : α) : α × α := (z.1 * t, z.2 * t)

/-- The nodal value `phi_value` of the Helmholtz unknown read from the bulk
element at bulk node `l` through the bulk complex unknown index. -/
def bulk_phi_value
    (e : PMLFourierDecomposedHelmholtzPowerMonitorElement α) (l : ℕ) :
    α × α :=
  (e.bulk_nodal_value l e.bulk_u_index_real,
    e.bulk_nodal_value l e.bulk_u_index_imag)

/-- Models `interpolated_dphidx[i]`: the sum over the bulk nodes of
`phi_value * dpsi_bulk_dx(l, i)`. -/
def interpolated_dphidx
    (e : PMLFourierDecomposedHelmholtzPowerMonitorElement α) (s : α) (i : ℕ) :
    α × α :=
  ∑ l in Finset.range e.nnode_bulk,
    cmul_real (bulk_phi_value e l) (e.dpsi_bulk_dx s l i)

/-- Models `interpolated_phi`: the sum over the face local nodes of the face
nodal complex value times the face shape function. -/
def interpolated_phi
    (e : PMLFourierDecomposedHelmholtzPowerMonitorElement α) (s : α) :
    α × α :=
  ∑ l in Finset.range e.n_node_local,
    cmul_real (e.nodal_value l e.U_index_real, e.nodal_value l e.U_index_imag)
      (e.shape s l)

/-- Models `dphi_dn`: the projection of the interpolated gradient onto the
outward unit normal. -/
def dphi_dn (e : PMLFourierDecomposedHelmholtzPowerMonitorElement α)
    (s : α) : α × α :=
  ∑ i in Finset.range e.bulk_dim,
    cmul_real (interpolated_dphidx e s i) (e.outer_unit_normal s i)

/-- Models the power density `integrand` at the face local coordinate `s`. -/
def power_integrand
    (e : PMLFourierDecomposedHelmholtzPowerMonitorElement α) (s : α) : α :=
  (interpolated_phi e s).1 * (dphi_dn e s).2 -
    (interpolated_phi e s).2 * (dphi_dn e s).1

/-- The amount `MathematicalConstants::Pi * x[0] * integrand * W` added to
`power` at integration point `ipt`, with `W = w * J`. -/
def power_term (e : PMLFourierDecomposedHelmholtzPowerMonitorElement α)
    (ipt : ℕ) : α :=
  e.pi_const * e.interpolated_x (e.knot ipt) 0 *
    power_integrand e (e.knot ipt) *
    (e.weight ipt * e.J_eulerian (e.knot ipt))

/-- One line of diagnostic output written to the optional output file: the
zone marker written before the integration loop, or the per-point record
`x[0] x[1] theta integrand`. -/
inductive PowerOutputItem (α : Type) where
  | zone : PowerOutputItem α
  | record (x0 x1 theta integrand : α) : PowerOutputItem α

/-- Models `global_power_contribution(outfile)`: the integration loop
accumulating `power` and, when the output file is open, appending one record
per integration point after the initial zone marker.  The returned pair is
the accumulated power and the emitted output. -/
def global_power_contribution_outfile
    (e : PMLFourierDecomposedHelmholtzPowerMonitorElement α)
    (is_open : Bool) : α × List (PowerOutputItem α) :=
  (List.range e.n_intpt).foldl
    (fun acc ipt =>
      (acc.1 + power_term e ipt,
        if is_open then
          acc.2 ++
            [PowerOutputItem.record (e.interpolated_x (e.knot ipt) 0)
              (e.interpolated_x (e.knot ipt) 1)
              (e.atan2 (e.interpolated_x (e.knot ipt) 0)
                (e.interpolated_x (e.knot ipt) 1))
              (power_integrand e (e.knot ipt))]
        else acc.2))
    (0, if is_open then [PowerOutputItem.zone] else [])

/-- Models the no-argument overload `global_power_contribution()`: it
constructs a dummy (default-constructed, hence not open) `std::ofstream` and
forwards to the overload taking the output file. -/
def global_power_contribution
    (e : PMLFourierDecomposedHelmholtzPowerMonitorElement α) : α :=
  (global_power_contribution_outfile e false).1

/-- Models the broken empty constructor of
`PMLFourierDecomposedHelmholtzPowerMonitorElement`: it unconditionally
throws an `OomphLibError`. -/
def PMLFourierDecomposedHelmholtzPowerMonitorElement.empty_constructor
    (α : Type) [CommRing α] :
    Except OomphLibError
      (PMLFourierDecomposedHelmholtzPowerMonitorElement α) :=
  Except.error
    (OomphLibError.mk
      "Dont call empty constructor for PMLFourierDecomposedHelmholtzPowerMonitorElement")

/-- Models the main constructor of
`PMLFourierDecomposedHelmholtzPowerMonitorElement`: as for the flux element,
`bulk_cast` is the result of the `dynamic_cast` to
`PMLFourierDecomposedHelmholtzEquations`; on failure the constructor throws,
on success `U_index` (initialised to `(0, 1)`) is overwritten with the pair
read from the bulk element. -/
def PMLFourierDecomposedHelmholtzPowerMonitorElement.construct
    (d : PowerFaceData α) (bulk_cast : Option (ℕ × ℕ)) :
    Except OomphLibError
      (PMLFourierDecomposedHelmholtzPowerMonitorElement α) :=
  match bulk_cast with
  | none =>
    Except.error
      (OomphLibError.mk
        "Bulk element must inherit from PMLFourierDecomposedHelmholtzEquations.")
  | some u =>
    Except.ok { toPowerFaceData := d, U_index_real := u.1, U_index_imag := u.2 }

/-- Face data for the end-to-end power scenario, parametrised by the value
used for `MathematicalConstants::Pi` so that the definition stays
executable: one face node, one bulk node, one integration point, weight 1,
Jacobian 1, face field value `(1, 0)`, bulk gradient chosen so the normal
derivative is `(0, 2)`, and position `x = (1, 0)`. -/
def examplePowerFaceData (pi_c : ℝ) : PowerFaceData ℝ where
  nnode_bulk := 1
  n_node_local := 1
  bulk_dim := 2
  n_intpt := 1
  knot := fun _ => 0
  weight := fun _ => 1
  shape := fun _ _ => 1
  J_eulerian := fun _ => 1
  outer_unit_normal := fun _ i => if i = 0 then 1 else 0
  dpsi_bulk_dx := fun _ _ i => if i = 0 then 1 else 0
  bulk_nodal_value := fun _ k => if k = 0 then 0 else 2
  bulk_u_index_real := 0
  bulk_u_index_imag := 1
  nodal_value := fun _ k => if k = 0 then 1 else 0
  interpolated_x := fun _ i => if i = 0 then 1 else 0
  atan2 := fun _ _ => 0
  pi_const := pi_c

/-- The end-to-end power scenario element. -/
def examplePowerElement (pi_c : ℝ) :
    PMLFourierDecomposedHelmholtzPowerMonitorElement ℝ :=
  { toPowerFaceData := examplePowerFaceData pi_c
    U_index_real := 0
    U_index_imag := 1 }

/-- A power monitor element whose nodal data is real everywhere (all
imaginary slots hold zero), so the reconstructed field and normal
derivative have zero imaginary part. -/
def exampleRealFieldPowerElement (pi_c : ℝ) :
    PMLFourierDecomposedHelmholtzPowerMonitorElement ℝ :=
  { toPowerFaceData :=
      { examplePowerFaceData pi_c with
          bulk_nodal_value := fun _ k => if k = 0 then 1 else 0 }
    U_index_real := 0
    U_index_imag := 1 }

theorem residual_sub_apply (res : ℕ → α) (local_eqn : ℤ) (v : α) (n : ℕ) :
    residual_sub res local_eqn v n =
      res n - (if 0 ≤ local_eqn ∧ local_eqn.toNat = n then v else 0) := by
  unfold residual_sub
  by_cases h : 0 ≤ local_eqn
  · by_cases hn : local_eqn.toNat = n
    · subst hn
      simp [h, Function.update_same]
    · simp [h, hn, Function.update_noteq (Ne.symm hn)]
  · simp [h]

theorem residual_sub_list_apply :
    ∀ (ps : List (ℤ × α)) (res : ℕ → α) (n : ℕ),
      residual_sub_list ps res n =
        res n -
          (ps.map fun p =>
            if 0 ≤ p.1 ∧ p.1.toNat = n then p.2 else 0).sum
  | [], res, n => by simp [residual_sub_list]
  | p :: ps, res, n => by
    show residual_sub_list ps (residual_sub res p.1 p.2) n = _
    rw [residual_sub_list_apply ps _ n, residual_sub_apply, List.map_cons,
      List.sum_cons, sub_sub]

theorem residual_sub_list_append :
    ∀ (ps qs : List (ℤ × α)) (res : ℕ → α),
      residual_sub_list (ps ++ qs) res =
        residual_sub_list qs (residual_sub_list ps res)
  | [], _, _ => rfl
  | p :: ps, qs, res => by
    show residual_sub_list (ps ++ qs) (residual_sub res p.1 p.2) = _
    exact residual_sub_list_append ps qs _

theorem foldl_residual_sub_list (f : (ℕ → α) → ℕ → (ℕ → α))
    (g : ℕ → List (ℤ × α))
    (hf : ∀ (res : ℕ → α) (i : ℕ), f res i = residual_sub_list (g i) res) :
    ∀ (L : List ℕ) (res : ℕ → α),
      L.foldl f res = residual_sub_list (L.flatMap g) res
  | [], res => by simp [residual_sub_list]
  | i :: L, res => by
    rw [List.foldl_cons, hf, List.flatMap_cons, residual_sub_list_append]
    exact foldl_residual_sub_list f g hf L _

theorem sum_map_range (f : ℕ → α) :
    ∀ n : ℕ, ((List.range n).map f).sum = ∑ i in Finset.range n, f i
  | 0 => by simp
  | n + 1 => by
    rw [List.range_succ, List.map_append, List.sum_append,
      Finset.sum_range_succ, sum_map_range f n]
    simp

theorem sum_map_flatMap {β : Type} (g : ℕ → List β) (F : β → α) :
    ∀ L : List ℕ,
      ((L.flatMap g).map F).sum = (L.map fun i => ((g i).map F).sum).sum
  | [] => rfl
  | i :: L => by
    rw [List.flatMap_cons, List.map_append, List.sum_append, List.map_cons,
      List.sum_cons, sum_map_flatMap g F L]

theorem fill_in_generic_flux_eq_pairs
    (e : PMLFourierDecomposedHelmholtzFluxElement α) (residuals : ℕ → α)
    (jacobian : ℕ → ℕ → α) (flag : ℕ) :
    (fill_in_generic_residual_contribution_pml_fourier_decomposed_helmholtz_flux
        e residuals jacobian flag).1 =
      residual_sub_list (flux_pairs e) residuals := by
  show (List.range e.n_intpt).foldl _ residuals = _
  exact foldl_residual_sub_list _ _
    (fun res ipt =>
      foldl_residual_sub_list _
        (fun l =>
          [(e.nodal_local_eqn l e.U_index_real, flux_contrib_real e ipt l),
            (e.nodal_local_eqn l e.U_index_imag, flux_contrib_imag e ipt l)])
        (fun _ _ => rfl) _ res)
    _ residuals

/-- Pointwise value of the assembled residual buffer: the initial entry minus
the sum, over all integration points and local nodes, of the contributions
whose (non-negative) local equation number addresses that entry. -/
theorem flux_residual_apply (e : PMLFourierDecomposedHelmholtzFluxElement α)
    (residuals : ℕ → α) (jacobian : ℕ → ℕ → α) (flag : ℕ) (n : ℕ) :
    (fill_in_generic_residual_contribution_pml_fourier_decomposed_helmholtz_flux
        e residuals jacobian flag).1 n =
      residuals n -
        ∑ ipt in Finset.range e.n_intpt, ∑ l in Finset.range e.nnode,
          ((if 0 ≤ e.nodal_local_eqn l e.U_index_real ∧
                (e.nodal_local_eqn l e.U_index_real).toNat = n
              then flux_contrib_real e ipt l else 0) +
            (if 0 ≤ e.nodal_local_eqn l e.U_index_imag ∧
                (e.nodal_local_eqn l e.U_index_imag).toNat = n
              then flux_contrib_imag e ipt l else 0)) := by
  rw [fill_in_generic_flux_eq_pairs, residual_sub_list_apply]
  congr 1
  unfold flux_pairs
  rw [sum_map_flatMap, sum_map_range]
  refine Finset.sum_congr rfl fun ipt _ => ?_
  rw [sum_map_flatMap, sum_map_range]
  refine Finset.sum_congr rfl fun l _ => ?_
  simp

theorem foldl_fst_add {β : Type} (f : ℕ → α) (step : α × β → ℕ → α × β)
    (hstep : ∀ acc i, (step acc i).1 = acc.1 + f i) :
    ∀ (L : List ℕ) (acc : α × β), (L.foldl step acc).1 = acc.1 + (L.map f).sum
  | [], acc => by simp
  | i :: L, acc => by
    rw [List.foldl_cons, foldl_fst_add f step hstep L _, hstep, List.map_cons,
      List.sum_cons, add_assoc]

/-- The accumulated power is the sum, over the integration points, of the
per-point term `pi * x[0] * integrand * W`, whether or not the output file
is open. -/
theorem global_power_eq_sum
    (e : PMLFourierDecomposedHelmholtzPowerMonitorElement α)
    (is_open : Bool) :
    (global_power_contribution_outfile e is_open).1 =
      ∑ ipt in Finset.range e.n_intpt, power_term e ipt := by
  unfold global_power_contribution_outfile
  rw [foldl_fst_add (power_term e) _ (fun acc i => rfl), sum_map_range,
    zero_add]

/-- With a closed output file the integration loop emits no output at all. -/
theorem global_power_outfile_inactive_snd
    (e : PMLFourierDecomposedHelmholtzPowerMonitorElement α) :
    (global_power_contribution_outfile e false).2 = [] := by
  show (List.foldl
      (fun (acc : α × List (PowerOutputItem α)) ipt =>
        (acc.1 + power_term e ipt, acc.2))
      ((0 : α), ([] : List (PowerOutputItem α)))
      (List.range e.n_intpt)).2 = []
  have h : ∀ (L : List ℕ) (acc : α × List (PowerOutputItem α)),
      (List.foldl
          (fun (acc : α × List (PowerOutputItem α)) ipt =>
            (acc.1 + power_term e ipt, acc.2)) acc L).2 = acc.2 := by
    intro L
    induction L with
    | nil => intro acc; rfl
    | cons i L ih => intro acc; rw [List.foldl_cons]; exact ih _
  exact h _ _

/-- C1: for every quadrature point and every local node the generic residual
routine subtracts flux real part (resp. imaginary part) times the test
function value of the node times the radial coordinate times the quadrature
weight times the geometric Jacobian from the residual entry addressed by the
real (resp. imaginary) component of the complex dof index of the node; in
the end-to-end scenario (one quadrature point, weight 1, Jacobian 1, one
node with test function 1, radial coordinate 2, constant flux (3, -4),
unpinned real and imaginary dofs at indices 0 and 1) the contribution is -6
to entry 0 and +8 to entry 1. -/
theorem flux_residual_contribution_correct :
    (∀ (e : PMLFourierDecomposedHelmholtzFluxElement ℤ) (residuals : ℕ → ℤ)
        (jacobian : ℕ → ℕ → ℤ) (flag : ℕ) (n : ℕ),
        (fill_in_generic_residual_contribution_pml_fourier_decomposed_helmholtz_flux
            e residuals jacobian flag).1 n =
          residuals n -
            ∑ ipt in Finset.range e.n_intpt, ∑ l in Finset.range e.nnode,
              ((if 0 ≤ e.nodal_local_eqn l e.U_index_real ∧
                    (e.nodal_local_eqn l e.U_index_real).toNat = n
                  then
                    (flux_value e ipt).1 * e.shape (e.knot ipt) l *
                      flux_interpolated_x e ipt 0 *
                      (e.weight ipt * e.J_eulerian (e.knot ipt))
                  else 0) +
                (if 0 ≤ e.nodal_local_eqn l e.U_index_imag ∧
                    (e.nodal_local_eqn l e.U_index_imag).toNat = n
                  then
                    (flux_value e ipt).2 * e.shape (e.knot ipt) l *
                      flux_interpolated_x e ipt 0 *
                      (e.weight ipt * e.J_eulerian (e.knot ipt))
                  else 0))) ∧
    (fill_in_generic_residual_contribution_pml_fourier_decomposed_helmholtz_flux
        exampleFluxElement (fun _ => 0) (fun _ _ => 0) 0).1 0 = -6 ∧
    (fill_in_generic_residual_contribution_pml_fourier_decomposed_helmholtz_flux
        exampleFluxElement (fun _ => 0) (fun _ _ => 0) 0).1 1 = 8 := by
  refine ⟨fun e residuals jacobian flag n => ?_, by decide, by decide⟩
  simpa only [flux_contrib_real, flux_contrib_imag] using
    flux_residual_apply e residuals jacobian flag n

/-- C3: the Jacobian buffer passed to `fill_in_contribution_to_jacobian` is
returned exactly as given for every input, so the Jacobian contribution of
the flux element is the zero matrix; in particular on the zero-initialised
buffer the returned Jacobian is all-zero. -/
theorem flux_jacobian_contribution_zero :
    (∀ (e : PMLFourierDecomposedHelmholtzFluxElement ℤ) (residuals : ℕ → ℤ)
        (jacobian : ℕ → ℕ → ℤ),
        (fill_in_contribution_to_jacobian e residuals jacobian).2 =
          jacobian) ∧
    (∀ (e : PMLFourierDecomposedHelmholtzFluxElement ℤ)
        (residuals : ℕ → ℤ),
        (fill_in_contribution_to_jacobian e residuals fun _ _ => 0).2 =
          fun _ _ => 0) :=
  ⟨fun _ _ _ => rfl, fun _ _ => rfl⟩

/-- C4: when the flux function pointer is null the effective flux is the
complex zero and the generic residual routine leaves every entry of the
residual buffer unchanged, for both channels. -/
theorem flux_null_flux_zero_contribution :
    ∀ (e : PMLFourierDecomposedHelmholtzFluxElement ℤ) (residuals : ℕ → ℤ)
      (jacobian : ℕ → ℕ → ℤ) (flag : ℕ),
      e.Flux_fct_pt = none →
      (fill_in_generic_residual_contribution_pml_fourier_decomposed_helmholtz_flux
          e residuals jacobian flag).1 = residuals := by
  intro e residuals jacobian flag h
  funext n
  have hz :
      (∑ ipt in Finset.range e.n_intpt, ∑ l in Finset.range e.nnode,
          ((if 0 ≤ e.nodal_local_eqn l e.U_index_real ∧
                (e.nodal_local_eqn l e.U_index_real).toNat = n
              then flux_contrib_real e ipt l else 0) +
            (if 0 ≤ e.nodal_local_eqn l e.U_index_imag ∧
                (e.nodal_local_eqn l e.U_index_imag).toNat = n
              then flux_contrib_imag e ipt l else 0))) = 0 := by
    refine Finset.sum_eq_zero fun ipt _ => Finset.sum_eq_zero fun l _ => ?_
    have hv : flux_value e ipt = (0, 0) := by simp [flux_value, get_flux, h]
    simp [flux_contrib_real, flux_contrib_imag, hv]
  rw [flux_residual_apply, hz, sub_zero]

/-- Witness for C4 at a concrete element with a null flux function. -/
theorem flux_null_flux_zero_contribution_witness :
    exampleNullFluxElement.Flux_fct_pt = none ∧
    (fill_in_generic_residual_contribution_pml_fourier_decomposed_helmholtz_flux
        exampleNullFluxElement (fun _ => 0) (fun _ _ => 0) 0).1 =
      fun _ => (0 : ℤ) :=
  ⟨rfl,
    flux_null_flux_zero_contribution exampleNullFluxElement (fun _ => 0)
      (fun _ _ => 0) 0 rfl⟩

/-- C5: a residual entry is only ever written through the non-negative local
equation number of a node addressing it, so the channel of a node with a
negative dof index is skipped, and on a face where every node is pinned in
both channels the residual buffer is left entirely unchanged. -/
theorem flux_pinned_dof_skipped :
    (∀ (e : PMLFourierDecomposedHelmholtzFluxElement ℤ) (residuals : ℕ → ℤ)
        (jacobian : ℕ → ℕ → ℤ) (flag : ℕ) (n : ℕ),
        (∀ l, l < e.nnode →
          ¬(0 ≤ e.nodal_local_eqn l e.U_index_real ∧
              (e.nodal_local_eqn l e.U_index_real).toNat = n) ∧
          ¬(0 ≤ e.nodal_local_eqn l e.U_index_imag ∧
              (e.nodal_local_eqn l e.U_index_imag).toNat = n)) →
        (fill_in_generic_residual_contribution_pml_fourier_decomposed_helmholtz_flux
            e residuals jacobian flag).1 n = residuals n) ∧
    (∀ (e : PMLFourierDecomposedHelmholtzFluxElement ℤ) (residuals : ℕ → ℤ)
        (jacobian : ℕ → ℕ → ℤ) (flag : ℕ),
        (∀ l, l < e.nnode →
          e.nodal_local_eqn l e.U_index_real < 0 ∧
          e.nodal_local_eqn l e.U_index_imag < 0) →
        (fill_in_generic_residual_contribution_pml_fourier_decomposed_helmholtz_flux
            e residuals jacobian flag).1 = residuals) := by
  have key :
      ∀ (e : PMLFourierDecomposedHelmholtzFluxElement ℤ) (residuals : ℕ → ℤ)
        (jacobian : ℕ → ℕ → ℤ) (flag : ℕ) (n : ℕ),
        (∀ l, l < e.nnode →
          ¬(0 ≤ e.nodal_local_eqn l e.U_index_real ∧
              (e.nodal_local_eqn l e.U_index_real).toNat = n) ∧
          ¬(0 ≤ e.nodal_local_eqn l e.U_index_imag ∧
              (e.nodal_local_eqn l e.U_index_imag).toNat = n)) →
        (fill_in_generic_residual_contribution_pml_fourier_decomposed_helmholtz_flux
            e residuals jacobian flag).1 n = residuals n := by
    intro e residuals jacobian flag n hpin
    have hz :
        (∑ ipt in Finset.range e.n_intpt, ∑ l in Finset.range e.nnode,
            ((if 0 ≤ e.nodal_local_eqn l e.U_index_real ∧
                  (e.nodal_local_eqn l e.U_index_real).toNat = n
                then flux_contrib_real e ipt l else 0) +
              (if 0 ≤ e.nodal_local_eqn l e.U_index_imag ∧
                  (e.nodal_local_eqn l e.U_index_imag).toNat = n
                then flux_contrib_imag e ipt l else 0))) = 0 := by
      refine Finset.sum_eq_zero fun ipt _ => Finset.sum_eq_zero fun l hl => ?_
      rw [if_neg (hpin l (Finset.mem_range.mp hl)).1,
        if_neg (hpin l (Finset.mem_range.mp hl)).2, add_zero]
    rw [flux_residual_apply, hz, sub_zero]
  refine ⟨key, fun e residuals jacobian flag hpin => funext fun n => ?_⟩
  refine key e residuals jacobian flag n fun l hl => ?_
  exact ⟨fun hc => absurd hc.1 (not_le.mpr (hpin l hl).1),
    fun hc => absurd hc.1 (not_le.mpr (hpin l hl).2)⟩

/-- Witness for C5 at a concrete element on which every node is pinned. -/
theorem flux_pinned_dof_skipped_witness :
    (∀ l, l < examplePinnedFluxElement.nnode →
      examplePinnedFluxElement.nodal_local_eqn l
          examplePinnedFluxElement.U_index_real < 0 ∧
      examplePinnedFluxElement.nodal_local_eqn l
          examplePinnedFluxElement.U_index_imag < 0) ∧
    (fill_in_generic_residual_contribution_pml_fourier_decomposed_helmholtz_flux
        examplePinnedFluxElement (fun _ => 0) (fun _ _ => 0) 0).1 =
      fun _ => (0 : ℤ) :=
  ⟨by decide,
    flux_pinned_dof_skipped.2 examplePinnedFluxElement (fun _ => 0)
      (fun _ _ => 0) 0 (by decide)⟩

/-- C6: for both element types the default (no-argument) construction path
unconditionally throws an `OomphLibError`, so it never produces an
element. -/
theorem empty_constructor_throws :
    (PMLFourierDecomposedHelmholtzFluxElement.empty_constructor ℤ =
        Except.error (OomphLibError.mk
          "Dont call empty constructor for PMLFourierDecomposedHelmholtzFluxElement") ∧
      ∀ e : PMLFourierDecomposedHelmholtzFluxElement ℤ,
        PMLFourierDecomposedHelmholtzFluxElement.empty_constructor ℤ ≠
          Except.ok e) ∧
    (PMLFourierDecomposedHelmholtzPowerMonitorElement.empty_constructor ℝ =
        Except.error (OomphLibError.mk
          "Dont call empty constructor for PMLFourierDecomposedHelmholtzPowerMonitorElement") ∧
      ∀ e : PMLFourierDecomposedHelmholtzPowerMonitorElement ℝ,
        PMLFourierDecomposedHelmholtzPowerMonitorElement.empty_constructor ℝ ≠
          Except.ok e) :=
  ⟨⟨rfl, fun _ h => Except.noConfusion h⟩,
    ⟨rfl, fun _ h => Except.noConfusion h⟩⟩

/-- C7: for both element types, construction from a bulk element fails with
an `OomphLibError` exactly when the cast of the bulk element to
`PMLFourierDecomposedHelmholtzEquations` fails; otherwise it succeeds and
the built element stores the complex dof index read from the bulk
element. -/
theorem construct_requires_helmholtz_capability :
    ((∀ g : FaceGeometryData ℤ,
        PMLFourierDecomposedHelmholtzFluxElement.construct g none =
          Except.error (OomphLibError.mk
            "Bulk element must inherit from PMLFourierDecomposedHelmholtzEquations.")) ∧
      ∀ (g : FaceGeometryData ℤ) (u : ℕ × ℕ),
        ∃ e, PMLFourierDecomposedHelmholtzFluxElement.construct g (some u) =
            Except.ok e ∧
          e.U_index_real = u.1 ∧ e.U_index_imag = u.2) ∧
    ((∀ d : PowerFaceData ℝ,
        PMLFourierDecomposedHelmholtzPowerMonitorElement.construct d none =
          Except.error (OomphLibError.mk
            "Bulk element must inherit from PMLFourierDecomposedHelmholtzEquations.")) ∧
      ∀ (d : PowerFaceData ℝ) (u : ℕ × ℕ),
        ∃ e,
          PMLFourierDecomposedHelmholtzPowerMonitorElement.construct d
              (some u) = Except.ok e ∧
          e.U_index_real = u.1 ∧ e.U_index_imag = u.2) :=
  ⟨⟨fun _ => rfl, fun _ _ => ⟨_, rfl, rfl, rfl⟩⟩,
    ⟨fun _ => rfl, fun _ _ => ⟨_, rfl, rfl, rfl⟩⟩⟩

/-- C2: the power value is the sum over the quadrature points of
`pi * x[0] * integrand * weight * Jacobian`, where the integrand is
`Re(phi) * Im(dphi_dn) - Im(phi) * Re(dphi_dn)`; in the end-to-end scenario
(one point, weight 1, Jacobian 1, field value (1, 0), normal derivative
(0, 2), x[0] = 1) the returned power equals `2 * pi`. -/
theorem global_power_contribution_correct :
    (∀ (e : PMLFourierDecomposedHelmholtzPowerMonitorElement ℝ) (s : ℝ),
        power_integrand e s =
          (interpolated_phi e s).1 * (dphi_dn e s).2 -
            (interpolated_phi e s).2 * (dphi_dn e s).1) ∧
    (∀ (e : PMLFourierDecomposedHelmholtzPowerMonitorElement ℝ)
        (is_open : Bool),
        (global_power_contribution_outfile e is_open).1 =
          ∑ ipt in Finset.range e.n_intpt,
            e.pi_const * e.interpolated_x (e.knot ipt) 0 *
              power_integrand e (e.knot ipt) *
              (e.weight ipt * e.J_eulerian (e.knot ipt))) ∧
    global_power_contribution (examplePowerElement Real.pi) =
      2 * Real.pi := by
  refine ⟨fun e s => rfl, fun e is_open => global_power_eq_sum e is_open, ?_⟩
  show (global_power_contribution_outfile _ false).1 = _
  rw [global_power_eq_sum]
  show ∑ ipt in Finset.range 1, _ = _
  rw [Finset.sum_range_one]
  norm_num [power_term, power_integrand, interpolated_phi, dphi_dn,
    interpolated_dphidx, bulk_phi_value, cmul_real, examplePowerElement,
    examplePowerFaceData, Finset.sum_range_succ]
  ring

/-- C8: the no-argument power computation and the computation with a closed
(inactive) output file return the same accumulated power, and with an
inactive file no diagnostic output is emitted. -/
theorem power_no_sink_matches_inactive_sink :
    (∀ e : PMLFourierDecomposedHelmholtzPowerMonitorElement ℝ,
        global_power_contribution e =
          (global_power_contribution_outfile e false).1) ∧
    (∀ e : PMLFourierDecomposedHelmholtzPowerMonitorElement ℝ,
        (global_power_contribution_outfile e false).2 = []) :=
  ⟨fun _ => rfl, fun e => global_power_outfile_inactive_snd e⟩

/-- C9: at a quadrature point where the reconstructed field value and the
reconstructed normal derivative both have zero imaginary part, the power
density integrand is exactly zero. -/
theorem power_integrand_real_field_zero :
    ∀ (e : PMLFourierDecomposedHelmholtzPowerMonitorElement ℝ) (ipt : ℕ),
      (interpolated_phi e (e.knot ipt)).2 = 0 →
      (dphi_dn e (e.knot ipt)).2 = 0 →
      power_integrand e (e.knot ipt) = 0 := by
  intro e ipt h1 h2
  unfold power_integrand
  rw [h1, h2, mul_zero, zero_mul, sub_zero]

/-- Witness for C9 at a concrete element whose nodal data is real
everywhere. -/
theorem power_integrand_real_field_zero_witness :
    (interpolated_phi (exampleRealFieldPowerElement Real.pi)
        ((exampleRealFieldPowerElement Real.pi).knot 0)).2 = 0 ∧
    (dphi_dn (exampleRealFieldPowerElement Real.pi)
        ((exampleRealFieldPowerElement Real.pi).knot 0)).2 = 0 ∧
    power_integrand (exampleRealFieldPowerElement Real.pi)
        ((exampleRealFieldPowerElement Real.pi).knot 0) = 0 := by
  have h1 : (interpolated_phi (exampleRealFieldPowerElement Real.pi)
      ((exampleRealFieldPowerElement Real.pi).knot 0)).2 = 0 := by
    simp [interpolated_phi, cmul_real, exampleRealFieldPowerElement,
      examplePowerFaceData]
  have h2 : (dphi_dn (exampleRealFieldPowerElement Real.pi)
      ((exampleRealFieldPowerElement Real.pi).knot 0)).2 = 0 := by
    simp [dphi_dn, interpolated_dphidx, bulk_phi_value, cmul_real,
      exampleRealFieldPowerElement, examplePowerFaceData,
      Finset.sum_range_succ]
  exact ⟨h1, h2,
    power_integrand_real_field_zero (exampleRealFieldPowerElement Real.pi) 0
      h1 h2⟩

/-- C10: `fill_in_contribution_to_jacobian` updates the residual buffer
exactly as `fill_in_contribution_to_residuals` does (the flag passed to the
generic routine has no observable effect), and it returns the Jacobian
buffer of the caller exactly as passed in. -/
theorem fill_in_jacobian_matches_residuals :
    ∀ (e : PMLFourierDecomposedHelmholtzFluxElement ℤ) (residuals : ℕ → ℤ)
      (jacobian : ℕ → ℕ → ℤ),
      (fill_in_contribution_to_jacobian e residuals jacobian).1 =
          fill_in_contribution_to_residuals e residuals ∧
        (fill_in_contribution_to_jacobian e residuals jacobian).2 =
          jacobian ∧
        ∀ flag1 flag2 : ℕ,
          (fill_in_generic_residual_contribution_pml_fourier_decomposed_helmholtz_flux
              e residuals jacobian flag1).1 =
            (fill_in_generic_residual_contribution_pml_fourier_decomposed_helmholtz_flux
                e residuals jacobian flag2).1 :=
  fun _ _ _ => ⟨rfl, rfl, fun _ _ => rfl⟩

end Oomph
